import Mathlib

/-!
Shallow embedding of `ImgurAlbumDownloader/imguralbum.py` (the single source
file of the repository) and verification of the frozen claims about it.

Conventions of the embedding:
* Python strings are `List Char`; response bodies handed to the image decoder
  are `List Nat` (raw bytes).
* `requests` transport outcomes are the `Response` inductive; the PIL
  capability "decode bytes, return width/height, or fail" is an explicit
  function parameter `decode : List Nat → Option (Nat × Nat)` (`none` models
  `UnidentifiedImageError`).
* The filesystem is an association list from paths to file contents; writing
  prepends, `fsLookup` finds the most recent write, `os.path.isfile` is
  `(fsLookup fs path).isSome`.
* Registered callbacks are lists of observer tokens (`List Nat`), mirroring
  the `self.*_callbacks` list-append registration; each firing of a slot is
  recorded as one `Event` per registered observer, in registration order.
* The regular-expression operations of the source are implemented as
  executable matchers that follow Python `re` semantics for the two concrete
  patterns of the source (leftmost match, greedy `+`, lazy `.*?` that does
  not cross a newline, ordered alternation with backtracking, `re.match`
  anchored at the start only).
-/

/-- `[a-zA-Z0-9]` — the character class used for the album key and the image
hash in both regular expressions of the source. -/
def isAlnumChar (c : Char) : Bool :=
  ('a' ≤ c && c ≤ 'z') || ('A' ≤ c && c ≤ 'Z') || ('0' ≤ c && c ≤ '9')

/-- `[0-9]` — the character class of the optional `#digits` URL fragment. -/
def isDigitChar (c : Char) : Bool := '0' ≤ c && c ≤ '9'

/-- Match a literal at the head of the input and return the remainder, or
`none` on mismatch.  This is the basic building block of the matchers. -/
def dropLit : List Char → List Char → Option (List Char)
  | [], s => some s
  | _ :: _, [] => none
  | l :: ls, c :: cs => if c = l then dropLit ls cs else none

/-! ## The album-URL check of `__init__`

Source:
`re.match(r"(https?)\:\/\/(www\.)?(?:m\.)?imgur\.com/(?:(?:a|gallery)/)?([a-zA-Z0-9]+)(#[0-9]+)?", album_url)`
returning `(match.group(1), match.group(3))` — the protocol and the album
key.  `re.match` anchors at the start of the string only; nothing anchors
the end, so trailing text after a matching prefix is accepted.

The trailing optional group `(#[0-9]+)?` can never make the match fail and
is not among the extracted groups, so it does not appear in the matcher. -/

/-- The key group `([a-zA-Z0-9]+)`: a greedy, non-empty alphanumeric run.
Greedy matching with nothing mandatory afterwards means the run is maximal. -/
def keyFrag (s : List Char) : Option (List Char) :=
  let k := s.takeWhile isAlnumChar
  if k.isEmpty then none else some k

/-- First-alternative-wins choice, the backtracking order of `re`. -/
def orElseO (a b : Option (List Char)) : Option (List Char) :=
  match a with
  | some x => some x
  | none => b

/-- `(?:(?:a|gallery)/)?([a-zA-Z0-9]+)`: try the `a/` segment, then the
`gallery/` segment, then no segment — exactly the backtracking order of the
optional group with the ordered alternation `a|gallery`. -/
def segKey (s : List Char) : Option (List Char) :=
  orElseO ((dropLit "a/".data s).bind keyFrag)
    (orElseO ((dropLit "gallery/".data s).bind keyFrag) (keyFrag s))

/-- `(https?)\:\/\/`: the greedy `s?` consumes an `'s'` when present; if it
does, backtracking to the empty alternative could only succeed when `://`
also starts with `'s'`, which it does not, so committing is faithful. -/
def matchScheme (s : List Char) : Option (List Char × List Char) :=
  match dropLit "http".data s with
  | none => none
  | some s1 =>
    match dropLit "s".data s1 with
    | some t => (dropLit "://".data t).map fun r => ("https".data, r)
    | none => (dropLit "://".data s1).map fun r => ("http".data, r)

/-- An optional literal group such as `(www\.)?`: consume it when present.
(Backtracking to the empty alternative is never needed for `www.`/`m.`
because the following mandatory literal `imgur.com/` starts with `'i'`.) -/
def dropOpt (lit : List Char) (s : List Char) : List Char :=
  match dropLit lit s with
  | some t => t
  | none => s

/-- `(www\.)?(?:m\.)?imgur\.com/`. -/
def hostRest (s : List Char) : Option (List Char) :=
  dropLit "imgur.com/".data (dropOpt "m.".data (dropOpt "www.".data s))

/-- The whole `re.match` of `__init__`, returning `(group(1), group(3))` =
`(protocol, album_key)` on success — exactly what the constructor stores in
`self.protocol` and `self.album_key`.  `none` models the
`ImgurAlbumException("URL must be a valid Imgur Album …")` raise. -/
def imgurMatch (s : List Char) : Option (List Char × List Char) :=
  match matchScheme s with
  | none => none
  | some pr =>
    match hostRest pr.2 with
    | none => none
    | some s6 => (segKey s6).map fun k => (pr.1, k)

/-! ## Listing and media URLs -/

/-- `fullListURL = "http://imgur.com/a/" + self.album_key + "/layout/blog"`.
The scheme is the hardcoded literal `http`; `self.protocol` is not used. -/
def fullListURL (album_key : List Char) : List Char :=
  "http://imgur.com/a/".data ++ album_key ++ "/layout/blog".data

/-- The listing URL the constructor builds for a given input album URL. -/
def constructListingUrl (album_url : List Char) : Option (List Char) :=
  (imgurMatch album_url).map fun pk => fullListURL pk.2

/-- A media item: `(id, extension)` with the extension carrying its leading
dot, exactly the tuple slice `i[0:2]` of the `re.findall` result. -/
abbrev Item := List Char × List Char

/-- `self.imageURLs = ["https://i.imgur.com/" + i[0] + i[1] for i in self.imageIDs]`
— computed in `__init__` (and never used by `save_images`). -/
def imageURLs_of (imageIDs : List Item) : List (List Char) :=
  imageIDs.map fun i => "https://i.imgur.com/".data ++ i.1 ++ i.2

/-- `image_url = "http://i.imgur.com/" + image[0] + image[1]` — the URL the
download loop of `save_images` actually requests (scheme `http`). -/
def image_url_of (image : Item) : List Char :=
  "http://i.imgur.com/".data ++ image.1 ++ image.2

/-! ## The extraction scan of `__init__`

Source:
`ext_regex = r"(\.(" + '|'.join(extn) + "))" if extn else ".*?"`
`self.imageIDs = re.findall(r'.*?{"hash":"([a-zA-Z0-9]+)".*?"ext":"(\.(' + ext_regex + '))".*?', html)`
followed by `self.imageIDs = list(set([i[0:2] for i in self.imageIDs]))`.

With a filter `extn`, the composed extension component of the pattern is
`(\.((\.(jpg|png))))` — NOTE the two literal dots: the outer template
already writes `\.` and the filter branch of `ext_regex` writes `\.` again.
Group 2 (the recorded extension, `i[1]`) therefore carries both dots.
Without a filter the component is `(\.(.*?))` — a dot, then a lazy run up
to the next quote.

The leading and trailing `.*?` of the pattern are lazy and unanchored, so
they do not change which group tuples `findall` produces: the scan below
looks for the leftmost core match and resumes right after it, which is the
`finditer` behaviour.  `.` does not match a newline (no `re.DOTALL`). -/

/-- Ordered alternation `e1|e2|…` of the filter extensions (matched as
literals — the source joins the raw strings into the pattern), each followed
by the mandatory closing quote; the captured group 2 text is `'.' :: '.' ::
e` because of the doubled dot in the composed pattern. -/
def extAlts : List (List Char) → List Char → Option (List Char × List Char)
  | [], _ => none
  | e :: es, t =>
    match dropLit e t with
    | some ('"' :: r) => some ('.' :: '.' :: e, r)
    | _ => extAlts es t

/-- The extension component right after `"ext":"`, returning the group 2
text and the remainder after the closing quote. -/
def extPart (extn : Option (List (List Char))) (s : List Char) :
    Option (List Char × List Char) :=
  match extn with
  | none =>
    match s with
    | '.' :: t =>
      let inner := t.takeWhile fun c => !(c == '"' || c == '\n')
      match t.dropWhile (fun c => !(c == '"' || c == '\n')) with
      | '"' :: r => some ('.' :: inner, r)
      | _ => none
    | _ => none
  | some exts =>
    match s with
    | '.' :: '.' :: t => extAlts exts t
    | _ => none

/-- The lazy gap `.*?"ext":"…` after the hash group: find the nearest
position where the literal `"ext":"` followed by a valid extension matches,
without crossing a newline. -/
def findExt (extn : Option (List (List Char))) : List Char → Option (List Char × List Char)
  | [] => none
  | c :: cs =>
    match (dropLit "\"ext\":\"".data (c :: cs)).bind (extPart extn) with
    | some r => some r
    | none => if c = '\n' then none else findExt extn cs

/-- The core of the findall pattern at a fixed position:
`{"hash":"([a-zA-Z0-9]+)".*?"ext":"(…)"`.  Returns `((group1, group2),
rest-after-match)`.  The greedy hash run must be non-empty and directly
followed by `"` (a shorter run would leave an alphanumeric character where
the quote is required, so no backtracking into the run can succeed). -/
def matchCore (extn : Option (List (List Char))) (s : List Char) :
    Option ((List Char × List Char) × List Char) :=
  (dropLit "\x7b\"hash\":\"".data s).bind fun s1 =>
    let h := s1.takeWhile isAlnumChar
    match s1.dropWhile isAlnumChar with
    | '"' :: r2 =>
      if h.isEmpty then none
      else (findExt extn r2).map fun er => ((h, er.1), er.2)
    | _ => none

/-- The `finditer` scan: leftmost core match, resume after its end.  Fuel is
the input length; every successful core match consumes at least the literal
`{"hash":"`, so one unit of fuel per examined position suffices. -/
def findallAux (extn : Option (List (List Char))) : Nat → List Char → List Item
  | 0, _ => []
  | _ + 1, [] => []
  | fuel + 1, c :: cs =>
    match matchCore extn (c :: cs) with
    | some (pr, rest) => pr :: findallAux extn fuel rest
    | none => findallAux extn fuel cs

/-- `re.findall(...)` restricted to the recorded tuple slice `i[0:2]` — the
list of `(hash, group-2 extension)` pairs, in page order, duplicates kept. -/
def extractPairs (html : List Char) (extn : Option (List (List Char))) : List Item :=
  findallAux extn html.length html

/-- `self.imageIDs = list(set(found))`: a Python `set` iterates in an order
that depends on the per-process string-hash randomisation, so the model is
the relation "out is the distinct pairs of `found` in some order".  Any
concrete iteration order of the set is a permutation of `found.dedup`. -/
abbrev pySetList (found out : List Item) : Prop := List.Perm out found.dedup

/-- Number of occurrences of `pat` as a contiguous substring of the page
(used to state claims about fragments "occurring in the page"). -/
def countSubstr (pat : List Char) : List Char → Nat
  | [] => 0
  | c :: cs => (if (dropLit pat (c :: cs)).isSome then 1 else 0) + countSubstr pat cs

/-- Number of items of the sequence equal to the given `(id, extension)`
pair (explicit recursion, used to state the deduplication claims). -/
def countPair (pr : Item) : List Item → Nat
  | [] => 0
  | x :: xs => (if x = pr then 1 else 0) + countPair pr xs

/-! ## The listing fetch of `__init__` (claim C7)

Source:
```
try:
    self.response = self.session.get(fullListURL, headers=..., allow_redirects=True, timeout=30)
    response_code = self.response.status_code
except Exception as e:
    self.response = False
    response_code = e.code
if not self.response or self.response.status_code != requests.codes['ok']:
    raise ImgurAlbumException("Error reading Imgur: Error Code %d" % response_code)
```
`requests.codes['ok']` is 200.  The transport exceptions `session.get` can
raise (`ConnectionError`, `Timeout`, `RetryError` after retry exhaustion, …)
define no attribute `code`, so the handler's `e.code` itself raises
`AttributeError`, which propagates out of `__init__` before the
`ImgurAlbumException` branch can run. -/

/-- Outcome of the underlying `session.get` for the listing. -/
inductive ListingResult where
  | resp (status : Nat) (body : List Char)
  | exc (ename : String)
deriving DecidableEq

/-- What escapes the fetch-and-check step of `__init__`. -/
inductive FetchOutcome where
  | ok (body : List Char)
  | imgurAlbumException (code : Nat)
  | attributeError (ename : String)
deriving DecidableEq

/-- The fetch-and-check step of `__init__` as run on a listing result. -/
def listing_fetch_check (r : ListingResult) : FetchOutcome :=
  match r with
  | ListingResult.resp status body =>
    if status = 200 then FetchOutcome.ok body
    else FetchOutcome.imgurAlbumException status
  | ListingResult.exc ename => FetchOutcome.attributeError ename

/-! ## The download loop `save_images` -/

/-- The on-disk destination folder: association list path ↦ raw bytes. -/
abbrev Fs := List (List Char × List Nat)

/-- Outcome of `self.session.get(image_url, …)` for one item. -/
inductive Response where
  | transportError (ename : String)
  | ok (content : List Nat)
deriving DecidableEq

/-- One observer invocation, tagged with the observer token. -/
inductive Event where
  | before (obs : Nat) (idx : Nat) (url : List Char) (path : List Char)
  | success (obs : Nat) (idx : Nat) (url : List Char) (path : List Char)
  | complete (obs : Nat)
deriving DecidableEq

/-- The three callback registration lists of the class. -/
structure Hooks where
  image_callbacks : List Nat
  success_callbacks : List Nat
  complete_callbacks : List Nat

/-- `os.path.isfile` / file contents on the association-list filesystem. -/
def fsLookup : Fs → List Char → Option (List Nat)
  | [], _ => none
  | (p, c) :: fs, q => if p = q then some c else fsLookup fs q

/-- `path = os.path.join(albumFolder, stem + "_{:0>2}".format(counter) + image[1])`
with the stem chosen by `useKey`.  `"{:0>2}"` left-pads with one zero for a
single-digit counter and leaves longer counters unchanged. -/
def destPath (albumFolder album_key : List Char) (useKey : Bool) (image : Item)
    (counter : Nat) : List Char :=
  let suffix := "_".data ++ (if counter < 10 then "0".data else []) ++ (toString counter).data
  albumFolder ++ "/".data ++ (if useKey then album_key else image.1) ++ suffix ++ image.2

/-- One iteration of the download loop, after the `image_callbacks` firing:
the existence check, the request, the decode, the 161×81 placeholder check,
and the write + `success_callbacks` firing.  Returns (filesystem, events
fired by this part, URLs requested).  The broad `except` of the source
absorbs transport errors (`Response.transportError`) and decode failures
(`decode = none`) — those branches fall through to the next item with the
filesystem unchanged (nothing has been written when they are raised, so the
`os.remove` cleanup finds nothing to do). -/
def save_step (net : List Char → Response) (decode : List Nat → Option (Nat × Nat))
    (hooks : Hooks) (albumFolder album_key : List Char) (useKey : Bool) (image : Item)
    (counter : Nat) (fs : Fs) : Fs × List Event × List (List Char) :=
  let image_url := image_url_of image
  let path := destPath albumFolder album_key useKey image counter
  if (fsLookup fs path).isSome then (fs, [], [])
  else
    match net image_url with
    | Response.transportError _ => (fs, [], [image_url])
    | Response.ok content =>
      match decode content with
      | none => (fs, [], [image_url])
      | some wh =>
        if wh.1 = 161 ∧ wh.2 = 81 then (fs, [], [image_url])
        else ((path, content) :: fs,
              hooks.success_callbacks.map fun o => Event.success o counter image_url path,
              [image_url])

/-- The `for (counter, image) in enumerate(self.imageIDs, start=1)` loop. -/
def save_images_aux (net : List Char → Response) (decode : List Nat → Option (Nat × Nat))
    (hooks : Hooks) (albumFolder album_key : List Char) (useKey : Bool) :
    List Item → Nat → Fs → Fs × List Event × List (List Char)
  | [], _, fs => (fs, [], [])
  | image :: rest, counter, fs =>
    let step := save_step net decode hooks albumFolder album_key useKey image counter fs
    let R := save_images_aux net decode hooks albumFolder album_key useKey rest (counter + 1) step.1
    (R.1,
     (hooks.image_callbacks.map fun o =>
        Event.before o counter (image_url_of image)
          (destPath albumFolder album_key useKey image counter)) ++ step.2.1 ++ R.2.1,
     step.2.2 ++ R.2.2)

/-- `save_images(foldername, useKey)`: resolve the folder (default: the album
key), run the loop from counter 1, then fire the complete callbacks. -/
def save_images (net : List Char → Response) (decode : List Nat → Option (Nat × Nat))
    (hooks : Hooks) (album_key : List Char) (imageIDs : List Item)
    (foldername : Option (List Char)) (useKey : Bool) (fs : Fs) :
    Fs × List Event × List (List Char) :=
  let albumFolder := foldername.getD album_key
  let R := save_images_aux net decode hooks albumFolder album_key useKey imageIDs 1 fs
  (R.1, R.2.1 ++ hooks.complete_callbacks.map Event.complete, R.2.2)

/-- `[s, s+1, …, s+n-1]` — the 1-indexed loop counters. -/
def idxFrom : Nat → Nat → List Nat
  | _, 0 => []
  | s, n + 1 => s :: idxFrom (s + 1) n

/-- Project the loop counter out of a `before` event of observer `o`. -/
def beforeIdx (o : Nat) : Event → Option Nat
  | Event.before o' i _ _ => if o' = o then some i else none
  | _ => none

/-! ## Python attribute lookup (claim C10)

`__init__` executes `self.album_key = match.group(3)`, and the class body
also defines a method `def album_key(self): …`.  Attribute lookup on an
instance consults the instance `__dict__` before the class `__dict__`, so
the string attribute shadows the method; calling a `str` raises `TypeError`. -/

/-- A Python attribute value, as far as this claim needs: a string, a
method, or something else. -/
inductive PyAttr where
  | strVal (s : List Char)
  | methodVal (methodName : String)
  | otherVal (what : String)
deriving DecidableEq

/-- Dictionary lookup (insertion order is irrelevant: names are distinct). -/
def dictLookup : List (String × PyAttr) → String → Option PyAttr
  | [], _ => none
  | (n, v) :: d, q => if n = q then some v else dictLookup d q

/-- The instance `__dict__` after a successful `__init__` with parsed
protocol `p` and album key `k` (attributes in assignment order). -/
def instance_dict (album_url p k : List Char) : List (String × PyAttr) :=
  [("album_url", PyAttr.strVal album_url),
   ("verbose", PyAttr.otherVal "bool"),
   ("image_callbacks", PyAttr.otherVal "list"),
   ("success_callbacks", PyAttr.otherVal "list"),
   ("complete_callbacks", PyAttr.otherVal "list"),
   ("protocol", PyAttr.strVal p),
   ("album_key", PyAttr.strVal k),
   ("session", PyAttr.otherVal "requests.Session"),
   ("headers", PyAttr.otherVal "dict"),
   ("response", PyAttr.otherVal "requests.Response"),
   ("imageIDs", PyAttr.otherVal "list"),
   ("imageURLs", PyAttr.otherVal "list"),
   ("cnt", PyAttr.otherVal "Counter")]

/-- The class `__dict__` of `ImgurAlbumDownloader`: the methods defined in
the class body. -/
def class_dict : List (String × PyAttr) :=
  [("__init__", PyAttr.methodVal "__init__"),
   ("num_images", PyAttr.methodVal "num_images"),
   ("list_extensions", PyAttr.methodVal "list_extensions"),
   ("album_key", PyAttr.methodVal "album_key"),
   ("on_image_download", PyAttr.methodVal "on_image_download"),
   ("on_download_success", PyAttr.methodVal "on_download_success"),
   ("on_complete", PyAttr.methodVal "on_complete"),
   ("save_images", PyAttr.methodVal "save_images")]

/-- Python attribute lookup on an instance: instance dict first, then the
class dict. -/
def getattrOn (inst cls : List (String × PyAttr)) (name : String) : Option PyAttr :=
  match dictLookup inst name with
  | some v => some v
  | none => dictLookup cls name

/-- Whether calling the attribute can succeed: only methods are callable;
calling a `str` raises `TypeError: 'str' object is not callable`. -/
def isCallable : PyAttr → Bool
  | PyAttr.methodVal _ => true
  | _ => false

/-! ## The spec-side album-URL shape (refinement check for claim C4)

`SpecAlbumUrl` follows the words of the specification: "gallery host with
optional `www.` or mobile subdomain, optional `/a/` or `/gallery/` segment,
alphanumeric key, optional `#digits` fragment" — the shape of the WHOLE
string, to be compared with the anchored-at-start-only `imgurMatch`. -/

/-- The input string is exactly (not merely by prefix) of the album-URL
shape described by the spec, with protocol `p` and key `k`. -/
def SpecAlbumUrl (s p k : List Char) : Prop :=
  ∃ sub seg frag,
    (p = "http".data ∨ p = "https".data) ∧
    (sub = [] ∨ sub = "www.".data ∨ sub = "m.".data ∨ sub = "www.m.".data) ∧
    (seg = [] ∨ seg = "a/".data ∨ seg = "gallery/".data) ∧
    k ≠ [] ∧ (∀ c ∈ k, isAlnumChar c = true) ∧
    (frag = [] ∨ ∃ d, frag = '#' :: d ∧ d ≠ [] ∧ ∀ c ∈ d, isDigitChar c = true) ∧
    s = p ++ ("://".data ++ (sub ++ ("imgur.com/".data ++ (seg ++ (k ++ frag)))))

/-- Characters that can occur in a string of the spec shape. -/
def SpecChar (c : Char) : Bool :=
  isAlnumChar c || (c == ':') || (c == '/') || (c == '.') || (c == '#')

/-! ## Concrete pages used by counterexamples -/

/-- The well-formed fragment `{"hash":"a","ext":".jpg"}`. -/
def fragA : List Char := "\x7b\"hash\":\"a\",\"ext\":\".jpg\"\x7d".data

/-- A page in which `fragA` occurs twice, each time preceded by a dangling
`{"hash":"…"` opener: the lazy gap of the pattern pairs each dangling hash
with the extension of the following well-formed fragment, so the pair
`("a", ".jpg")` itself is never among the findall results. -/
def pageSwallow : List Char :=
  "\x7b\"hash\":\"q1\"".data ++ fragA ++ "\x7b\"hash\":\"q2\"".data ++ fragA

/-- A page of two distinct well-formed fragments. -/
def pageTwo : List Char :=
  "\x7b\"hash\":\"aaa\",\"ext\":\".jpg\"\x7d\x7b\"hash\":\"bbb\",\"ext\":\".png\"\x7d".data

/-! ## Concrete fixtures used by witnesses and counterexamples -/

/-- A network that always fails at the transport level. -/
def netFail : List Char → Response := fun _ => Response.transportError "ConnectionError"

/-- A network that always answers with the one-byte body `[5]`. -/
def netOk5 : List Char → Response := fun _ => Response.ok [5]

/-- A decoder that always fails (`UnidentifiedImageError`). -/
def decodeNone : List Nat → Option (Nat × Nat) := fun _ => none

/-- A decoder that always reports the 161×81 placeholder dimensions. -/
def decodePlaceholder : List Nat → Option (Nat × Nat) := fun _ => some (161, 81)

/-- No registered observers. -/
def noHooks : Hooks := ⟨[], [], []⟩

/-- A sample media item. -/
def itemAbc : Item := ("abc".data, ".jpg".data)

/-- A destination folder already holding `itemAbc`'s file for counter 1 of a
run with album key `k` and the default folder name. -/
def fsAbc : Fs := [("k/abc_01.jpg".data, [7])]

/-! ## Helper lemmas: `dropLit`, `takeWhile` -/

theorem dropLit_self_append (l r : List Char) : dropLit l (l ++ r) = some r := by
  induction l with
  | nil => rfl
  | cons c cs ih => simp [dropLit, ih]

theorem dropLit_eq_some {l s r : List Char} (h : dropLit l s = some r) : s = l ++ r := by
  induction l generalizing s with
  | nil => simp [dropLit] at h; simp [h]
  | cons c cs ih =>
    cases s with
    | nil => simp [dropLit] at h
    | cons a as =>
      simp only [dropLit] at h
      split at h
      · next he => subst he; simpa using ih h
      · exact absurd h (by simp)

theorem takeWhile_all_append (p : Char → Bool) (k f : List Char)
    (hk : ∀ c ∈ k, p c = true) : (k ++ f).takeWhile p = k ++ f.takeWhile p := by
  induction k with
  | nil => simp
  | cons c cs ih =>
    have hc : p c = true := hk c (by simp)
    simp [List.takeWhile, hc, ih fun c hc => hk c (by simp [hc])]

theorem isAlnumChar_of_digit {c : Char} (h : isDigitChar c = true) : isAlnumChar c = true := by
  simp only [isDigitChar, Bool.and_eq_true] at h
  simp [isAlnumChar, h.1, h.2]

/-! ## Helper lemmas: the URL matcher on full-shape strings -/

theorem keyFrag_key_frag (k frag : List Char) (hk : k ≠ [])
    (ha : ∀ c ∈ k, isAlnumChar c = true)
    (hf : frag = [] ∨ ∃ d, frag = '#' :: d) : keyFrag (k ++ frag) = some k := by
  have ht : (k ++ frag).takeWhile isAlnumChar = k := by
    rw [takeWhile_all_append _ _ _ ha]
    have hfrag : frag.takeWhile isAlnumChar = [] := by
      rcases hf with h | ⟨d, h⟩ <;> subst h
      · rfl
      · simp [List.takeWhile_cons, show isAlnumChar '#' = false from rfl]
    simp [hfrag]
  unfold keyFrag
  rw [ht]
  cases k with
  | nil => exact absurd rfl hk
  | cons c cs => simp

theorem slash_not_mem_key_frag (k frag : List Char)
    (ha : ∀ c ∈ k, isAlnumChar c = true)
    (hf : frag = [] ∨ ∃ d, frag = '#' :: d ∧ d ≠ [] ∧ ∀ c ∈ d, isDigitChar c = true) :
    '/' ∉ k ++ frag := by
  intro hmem
  rcases List.mem_append.mp hmem with h | h
  · exact absurd (ha _ h) (by decide)
  · rcases hf with hf | ⟨d, hfe, _, hd⟩
    · subst hf; simp at h
    · subst hfe
      rcases List.mem_cons.mp h with h | h
      · exact absurd h.symm (by decide)
      · exact absurd (hd _ h) (by decide)

theorem dropLit_none_of_slash (l k frag : List Char) (hsl : '/' ∈ l)
    (ha : ∀ c ∈ k, isAlnumChar c = true)
    (hf : frag = [] ∨ ∃ d, frag = '#' :: d ∧ d ≠ [] ∧ ∀ c ∈ d, isDigitChar c = true) :
    dropLit l (k ++ frag) = none := by
  cases hdl : dropLit l (k ++ frag) with
  | none => rfl
  | some r =>
    have heq := dropLit_eq_some hdl
    have : '/' ∈ k ++ frag := heq ▸ List.mem_append.mpr (Or.inl hsl)
    exact absurd this (slash_not_mem_key_frag k frag ha hf)

theorem segKey_spec (seg k frag : List Char)
    (hseg : seg = [] ∨ seg = "a/".data ∨ seg = "gallery/".data)
    (hk : k ≠ []) (ha : ∀ c ∈ k, isAlnumChar c = true)
    (hf : frag = [] ∨ ∃ d, frag = '#' :: d ∧ d ≠ [] ∧ ∀ c ∈ d, isDigitChar c = true) :
    segKey (seg ++ (k ++ frag)) = some k := by
  have hkf : keyFrag (k ++ frag) = some k :=
    keyFrag_key_frag k frag hk ha (by rcases hf with h | ⟨d, h, _, _⟩; exact Or.inl h; exact Or.inr ⟨d, h⟩)
  rcases hseg with rfl | rfl | rfl
  · have h1 : dropLit "a/".data (k ++ frag) = none :=
      dropLit_none_of_slash _ k frag (by decide) ha hf
    have h2 : dropLit "gallery/".data (k ++ frag) = none :=
      dropLit_none_of_slash _ k frag (by decide) ha hf
    simp [segKey, h1, h2, hkf, orElseO]
  · simp [segKey, dropLit, hkf, orElseO]
  · simp [segKey, dropLit, hkf, orElseO]

theorem imgurMatch_reduce (p sub : List Char)
    (hp : p = "http".data ∨ p = "https".data)
    (hsub : sub = [] ∨ sub = "www.".data ∨ sub = "m.".data ∨ sub = "www.m.".data)
    (t : List Char) :
    imgurMatch (p ++ ("://".data ++ (sub ++ ("imgur.com/".data ++ t)))) =
      (segKey t).map fun k => (p, k) := by
  rcases hp with rfl | rfl <;> rcases hsub with rfl | rfl | rfl | rfl <;> rfl

theorem specChar_of_mem {s p k : List Char} (h : SpecAlbumUrl s p k) :
    ∀ c ∈ s, SpecChar c = true := by
  obtain ⟨sub, seg, frag, hp, hsub, hseg, -, hka, hfrag, hs⟩ := h
  subst hs
  intro c hc
  have hlit1 : ∀ c ∈ "http".data, SpecChar c = true := by decide
  have hlit2 : ∀ c ∈ "https".data, SpecChar c = true := by decide
  have hlit3 : ∀ c ∈ "://".data, SpecChar c = true := by decide
  have hlit4 : ∀ c ∈ "imgur.com/".data, SpecChar c = true := by decide
  simp only [List.mem_append] at hc
  rcases hc with hc | hc | hc | hc | hc | hc | hc
  · rcases hp with rfl | rfl
    · exact hlit1 c hc
    · exact hlit2 c hc
  · exact hlit3 c hc
  · rcases hsub with rfl | rfl | rfl | rfl
    · simp at hc
    · revert hc; revert c; decide
    · revert hc; revert c; decide
    · revert hc; revert c; decide
  · exact hlit4 c hc
  · rcases hseg with rfl | rfl | rfl
    · simp at hc
    · revert hc; revert c; decide
    · revert hc; revert c; decide
  · simp [SpecChar, hka c hc]
  · rcases hfrag with rfl | ⟨d, rfl, -, hd⟩
    · simp at hc
    · rcases List.mem_cons.mp hc with rfl | hc
      · decide
      · simp [SpecChar, isAlnumChar_of_digit (hd c hc)]

theorem keyFrag_alnum {s k : List Char} (h : keyFrag s = some k) :
    ∀ c ∈ k, isAlnumChar c = true := by
  simp only [keyFrag] at h
  split at h
  · simp at h
  · intro c hc
    have hk : s.takeWhile isAlnumChar = k := by injection h
    exact List.mem_takeWhile_imp (hk.symm ▸ hc)

theorem segKey_alnum {s k : List Char} (h : segKey s = some k) :
    ∀ c ∈ k, isAlnumChar c = true := by
  unfold segKey orElseO at h
  split at h
  · next x hx =>
    injection h with h1
    subst h1
    rcases Option.bind_eq_some.mp hx with ⟨t, -, hkf⟩
    exact keyFrag_alnum hkf
  · split at h
    · next x hx =>
      injection h with h1
      subst h1
      rcases Option.bind_eq_some.mp hx with ⟨t, -, hkf⟩
      exact keyFrag_alnum hkf
    · exact keyFrag_alnum h

theorem imgurMatch_key_alnum {s p k : List Char} (h : imgurMatch s = some (p, k)) :
    ∀ c ∈ k, isAlnumChar c = true := by
  unfold imgurMatch at h
  split at h
  · simp at h
  · split at h
    · simp at h
    · rcases Option.map_eq_some'.mp h with ⟨k', hk', heq⟩
      have : k' = k := congrArg Prod.snd heq
      exact this ▸ segKey_alnum hk'

/-! ## Helper lemmas: the download loop -/

theorem aux_no_complete (net decode hooks albumFolder album_key useKey) :
    ∀ (items : List Item) (counter : Nat) (fs : Fs) (o' : Nat),
      Event.complete o' ∉
        (save_images_aux net decode hooks albumFolder album_key useKey items counter fs).2.1 := by
  intro items
  induction items with
  | nil => intro counter fs o'; simp [save_images_aux]
  | cons image rest ih =>
    intro counter fs o'
    simp only [save_images_aux, List.mem_append, List.mem_map]
    push_neg
    refine ⟨⟨fun o ho => by simp, ?_⟩, fun h => absurd h (ih _ _ o')⟩
    simp only [save_step]
    split
    · simp
    · split
      · simp
      · split
        · simp
        · split
          · simp
          · simp

theorem filterMap_before_map (o : Nat) (cbs : List Nat) (c : Nat) (u p : List Char) :
    (cbs.map fun o' => Event.before o' c u p).filterMap (beforeIdx o) =
      List.replicate (cbs.count o) c := by
  induction cbs with
  | nil => simp
  | cons x xs ih =>
    simp only [List.map_cons, List.filterMap_cons, List.count_cons, beforeIdx]
    by_cases hx : x = o
    · subst hx
      simp [ih, List.replicate_succ]
    · simp [hx, ih, Ne.symm hx]

theorem filterMap_success_map (o : Nat) (cbs : List Nat) (c : Nat) (u p : List Char) :
    (cbs.map fun o' => Event.success o' c u p).filterMap (beforeIdx o) = [] := by
  induction cbs with
  | nil => simp
  | cons x xs ih => simp [beforeIdx, ih]

theorem count_complete_map (o : Nat) (cbs : List Nat) :
    (cbs.map Event.complete).count (Event.complete o) = cbs.count o := by
  induction cbs with
  | nil => simp
  | cons x xs ih =>
    simp only [List.map_cons, List.count_cons, ih]
    by_cases hx : x = o
    · simp [hx]
    · simp [hx, Event.complete.injEq]

theorem aux_before_indices (net decode hooks albumFolder album_key useKey o) :
    ∀ (items : List Item) (counter : Nat) (fs : Fs),
      ((save_images_aux net decode hooks albumFolder album_key useKey items counter
          fs).2.1).filterMap (beforeIdx o) =
        (idxFrom counter items.length).flatMap fun i =>
          List.replicate (hooks.image_callbacks.count o) i := by
  intro items
  induction items with
  | nil => intro counter fs; simp [save_images_aux, idxFrom]
  | cons image rest ih =>
    intro counter fs
    simp only [save_images_aux, List.filterMap_append, List.length_cons, idxFrom,
      List.flatMap_cons]
    rw [filterMap_before_map, ih]
    congr 1
    simp only [save_step]
    split
    · simp
    · split
      · simp
      · split
        · simp
        · split
          · simp
          · rw [filterMap_success_map]; simp

theorem fsLookup_cons_isSome (p : List Char × List Nat) (fs : Fs) (q : List Char)
    (h : (fsLookup fs q).isSome = true) : (fsLookup (p :: fs) q).isSome = true := by
  cases p with
  | mk a b => simp only [fsLookup]; split <;> simp [h]

theorem save_step_fs_mono (net decode hooks albumFolder album_key useKey image counter fs q)
    (h : (fsLookup fs q).isSome = true) :
    (fsLookup
        (save_step net decode hooks albumFolder album_key useKey image counter fs).1
        q).isSome = true := by
  simp only [save_step]
  split
  · exact h
  · split
    · exact h
    · split
      · exact h
      · split
        · exact h
        · exact fsLookup_cons_isSome _ _ _ h

theorem aux_fs_mono (net decode hooks albumFolder album_key useKey) :
    ∀ (items : List Item) (counter : Nat) (fs : Fs) (q : List Char),
      (fsLookup fs q).isSome = true →
      (fsLookup
          (save_images_aux net decode hooks albumFolder album_key useKey items counter fs).1
          q).isSome = true := by
  intro items
  induction items with
  | nil => intro counter fs q h; simpa [save_images_aux] using h
  | cons image rest ih =>
    intro counter fs q h
    exact ih _ _ _
      (save_step_fs_mono net decode hooks albumFolder album_key useKey image counter fs q h)

theorem save_step_fst_idem (net decode hooks albumFolder album_key useKey image counter fs FS1)
    (hmono :
      (fsLookup (save_step net decode hooks albumFolder album_key useKey image counter fs).1
          (destPath albumFolder album_key useKey image counter)).isSome = true →
      (fsLookup FS1 (destPath albumFolder album_key useKey image counter)).isSome = true) :
    (save_step net decode hooks albumFolder album_key useKey image counter FS1).1 = FS1 := by
  by_cases hF1 :
      (fsLookup FS1 (destPath albumFolder album_key useKey image counter)).isSome = true
  · simp [save_step, hF1]
  · by_cases hex :
        (fsLookup fs (destPath albumFolder album_key useKey image counter)).isSome = true
    · exact absurd (hmono (by simp [save_step, hex])) hF1
    · cases hnet : net (image_url_of image) with
      | transportError e => simp [save_step, hF1, hnet]
      | ok content =>
        cases hdec : decode content with
        | none => simp [save_step, hF1, hnet, hdec]
        | some wh =>
          by_cases hwh : wh.1 = 161 ∧ wh.2 = 81
          · simp [save_step, hF1, hnet, hdec, hwh]
          · exfalso
            apply hF1
            apply hmono
            simp [save_step, hex, hnet, hdec, hwh, fsLookup]

theorem aux_fst_idem (net decode hooks albumFolder album_key useKey) :
    ∀ (items : List Item) (counter : Nat) (fs : Fs),
      (save_images_aux net decode hooks albumFolder album_key useKey items counter
          (save_images_aux net decode hooks albumFolder album_key useKey items counter
            fs).1).1 =
        (save_images_aux net decode hooks albumFolder album_key useKey items counter fs).1 := by
  intro items
  induction items with
  | nil => intro counter fs; simp [save_images_aux]
  | cons image rest ih =>
    intro counter fs
    have hstep :
        (save_step net decode hooks albumFolder album_key useKey image counter
          (save_images_aux net decode hooks albumFolder album_key useKey (image :: rest)
            counter fs).1).1 =
          (save_images_aux net decode hooks albumFolder album_key useKey (image :: rest)
            counter fs).1 := by
      apply save_step_fst_idem net decode hooks albumFolder album_key useKey image counter fs
      intro h
      exact aux_fs_mono net decode hooks albumFolder album_key useKey rest (counter + 1)
        (save_step net decode hooks albumFolder album_key useKey image counter fs).1 _ h
    conv_lhs => rw [save_images_aux]
    rw [hstep]
    exact ih (counter + 1)
      (save_step net decode hooks albumFolder album_key useKey image counter fs).1

theorem save_step_reqs (net decode hooks albumFolder album_key useKey image counter fs u)
    (hu : u ∈ (save_step net decode hooks albumFolder album_key useKey image counter fs).2.2) :
    u = image_url_of image ∧
      fsLookup fs (destPath albumFolder album_key useKey image counter) = none := by
  simp only [save_step] at hu
  split at hu
  · simp at hu
  · next hni =>
    have hnone : fsLookup fs (destPath albumFolder album_key useKey image counter) = none := by
      cases hfs : fsLookup fs (destPath albumFolder album_key useKey image counter) with
      | none => rfl
      | some v => exact absurd (by simp [hfs]) hni
    split at hu
    · simp at hu; exact ⟨hu, hnone⟩
    · split at hu
      · simp at hu; exact ⟨hu, hnone⟩
      · split at hu
        · simp at hu; exact ⟨hu, hnone⟩
        · simp at hu; exact ⟨hu, hnone⟩

theorem aux_reqs (net decode hooks albumFolder album_key useKey) :
    ∀ (items : List Item) (counter : Nat) (fs : Fs) (u : List Char),
      u ∈ (save_images_aux net decode hooks albumFolder album_key useKey items counter fs).2.2 →
      ∃ pre image post, items = pre ++ image :: post ∧ u = image_url_of image ∧
        fsLookup fs
          (destPath albumFolder album_key useKey image (counter + pre.length)) = none := by
  intro items
  induction items with
  | nil => intro counter fs u h; simp [save_images_aux] at h
  | cons image rest ih =>
    intro counter fs u hu
    have hsplit : u ∈ (save_step net decode hooks albumFolder album_key useKey image counter
          fs).2.2 ∨
        u ∈ (save_images_aux net decode hooks albumFolder album_key useKey rest (counter + 1)
          (save_step net decode hooks albumFolder album_key useKey image counter
            fs).1).2.2 := by
      rw [save_images_aux] at hu
      exact List.mem_append.mp hu
    rcases hsplit with hu | hu
    · rcases save_step_reqs net decode hooks albumFolder album_key useKey image counter fs u hu
        with ⟨hurl, hnone⟩
      exact ⟨[], image, rest, by simp, hurl, by simpa using hnone⟩
    · rcases ih (counter + 1)
          (save_step net decode hooks albumFolder album_key useKey image counter fs).1 u hu
        with ⟨pre, im, post, hitems, hurl, hnone⟩
      refine ⟨image :: pre, im, post, by simp [hitems], hurl, ?_⟩
      have harith : counter + (image :: pre).length = counter + 1 + pre.length := by
        simp [List.length_cons]; omega
      rw [harith]
      cases hq : fsLookup fs (destPath albumFolder album_key useKey im
          (counter + 1 + pre.length)) with
      | none => rfl
      | some v =>
        have := save_step_fs_mono net decode hooks albumFolder album_key useKey image counter
          fs (destPath albumFolder album_key useKey im (counter + 1 + pre.length))
          (by rw [hq]; rfl)
        rw [hnone] at this
        simp at this

theorem filterMap_complete_map (o : Nat) (cbs : List Nat) :
    (cbs.map Event.complete).filterMap (beforeIdx o) = [] := by
  induction cbs with
  | nil => simp
  | cons x xs ih => simp [beforeIdx, ih]

theorem countPair_eq_zero_of_not_mem {pr : Item} {l : List Item} (h : pr ∉ l) :
    countPair pr l = 0 := by
  induction l with
  | nil => rfl
  | cons x xs ih =>
    have hx : x ≠ pr := fun he => h (he ▸ List.mem_cons_self x xs)
    simp only [countPair, if_neg hx, Nat.zero_add]
    exact ih fun hm => h (List.mem_cons_of_mem x hm)

theorem mem_of_countPair_pos {pr : Item} {l : List Item} (h : 1 ≤ countPair pr l) : pr ∈ l := by
  induction l with
  | nil => simp [countPair] at h
  | cons x xs ih =>
    by_cases hx : x = pr
    · exact hx ▸ List.mem_cons_self x xs
    · simp only [countPair, if_neg hx, Nat.zero_add] at h
      exact List.mem_cons_of_mem x (ih h)

theorem countPair_le_one_of_nodup {l : List Item} (h : l.Nodup) (pr : Item) :
    countPair pr l ≤ 1 := by
  induction l with
  | nil => simp [countPair]
  | cons x xs ih =>
    rcases List.nodup_cons.mp h with ⟨hx, hxs⟩
    by_cases he : x = pr
    · subst he
      simp [countPair, countPair_eq_zero_of_not_mem hx]
    · simp only [countPair, if_neg he, Nat.zero_add]
      exact ih hxs

theorem countPair_eq_one_of_nodup_mem {pr : Item} {l : List Item} (h : l.Nodup)
    (hm : pr ∈ l) : countPair pr l = 1 := by
  induction l with
  | nil => simp at hm
  | cons x xs ih =>
    rcases List.nodup_cons.mp h with ⟨hx, hxs⟩
    by_cases he : x = pr
    · subst he
      simp [countPair, countPair_eq_zero_of_not_mem hx]
    · rcases List.mem_cons.mp hm with hm1 | hm2
      · exact absurd hm1.symm he
      · simp only [countPair, if_neg he, Nat.zero_add]
        exact ih hxs hm2

theorem countPair_perm {l1 l2 : List Item} (h : List.Perm l1 l2) (pr : Item) :
    countPair pr l1 = countPair pr l2 := by
  induction h with
  | nil => rfl
  | cons x _ ih => simp [countPair, ih]
  | swap x y l => simp [countPair]; omega
  | trans _ _ ih1 ih2 => exact ih1.trans ih2

/-! ## The claims -/

/-- C1: for every media-item sequence and every run of `save_images`, per-item
transport and decode failures are absorbed inside the loop (the run is a
total function into its result triple, with no escaping error case), every
item is still processed in order (for any observer `o`, the `before` firings
carry exactly the counters `1, …, n` in order, one block per registration of
`o`), and the `complete` callbacks fire exactly once per registration, after
all item events. -/
theorem C1_failure_isolation (net : List Char → Response)
    (decode : List Nat → Option (Nat × Nat)) (hooks : Hooks) (album_key : List Char)
    (imageIDs : List Item) (foldername : Option (List Char)) (useKey : Bool) (fs : Fs)
    (o : Nat) :
    ∃ evsItems,
      (save_images net decode hooks album_key imageIDs foldername useKey fs).2.1 =
        evsItems ++ hooks.complete_callbacks.map Event.complete ∧
      (∀ o', Event.complete o' ∉ evsItems) ∧
      ((save_images net decode hooks album_key imageIDs foldername useKey fs).2.1).count
          (Event.complete o) = hooks.complete_callbacks.count o ∧
      ((save_images net decode hooks album_key imageIDs foldername useKey fs).2.1).filterMap
          (beforeIdx o) =
        (idxFrom 1 imageIDs.length).flatMap fun i =>
          List.replicate (hooks.image_callbacks.count o) i := by
  have hev : (save_images net decode hooks album_key imageIDs foldername useKey fs).2.1 =
      (save_images_aux net decode hooks (foldername.getD album_key) album_key useKey imageIDs
        1 fs).2.1 ++ hooks.complete_callbacks.map Event.complete := rfl
  refine ⟨_, hev,
    fun o' => aux_no_complete net decode hooks (foldername.getD album_key) album_key useKey
      imageIDs 1 fs o', ?_, ?_⟩
  · rw [hev, List.count_append,
      List.count_eq_zero_of_not_mem (aux_no_complete net decode hooks
        (foldername.getD album_key) album_key useKey imageIDs 1 fs o),
      count_complete_map, Nat.zero_add]
  · rw [hev, List.filterMap_append,
      aux_before_indices net decode hooks (foldername.getD album_key) album_key useKey o
        imageIDs 1 fs,
      filterMap_complete_map, List.append_nil]

/-- C2 counterexample: in `pageSwallow` the well-formed fragment
`{"hash":"a","ext":".jpg"}` occurs twice as a substring, yet no run of the
extraction produces the pair `("a", ".jpg")` at all — each occurrence is
swallowed by the lazy gap of a match that starts at a preceding dangling
`{"hash":"…"` opener.  "Occurs N>1 times implies exactly one MediaItem with
that pair" is therefore false as stated. -/
theorem C2_counterexample :
    countSubstr fragA pageSwallow = 2 ∧
    pySetList (extractPairs pageSwallow none) ((extractPairs pageSwallow none).dedup) ∧
    countPair ("a".data, ".jpg".data) ((extractPairs pageSwallow none).dedup) = 0 := by
  exact ⟨by decide, List.Perm.refl _, by decide⟩

/-- C2 (amended): extraction deduplicates by the full `(id, extension)` pair
for the pairs the findall scan produces: whenever the scan yields a pair at
least once (in particular N>1 times), every `list(set(...))` outcome contains
exactly one item with that pair, and no outcome contains two items with the
same pair. -/
theorem C2_dedup_amended (html : List Char) (extn : Option (List (List Char)))
    (out : List Item) (h : pySetList (extractPairs html extn) out) :
    (∀ pr : Item, 1 ≤ countPair pr (extractPairs html extn) → countPair pr out = 1) ∧
    (∀ pr : Item, countPair pr out ≤ 1) := by
  constructor
  · intro pr hpr
    rw [countPair_perm h pr]
    exact countPair_eq_one_of_nodup_mem (List.nodup_dedup _)
      (List.mem_dedup.mpr (mem_of_countPair_pos hpr))
  · intro pr
    rw [countPair_perm h pr]
    exact countPair_le_one_of_nodup (List.nodup_dedup _) pr

theorem C2_dedup_amended_witness :
    pySetList (extractPairs pageTwo none)
      [("bbb".data, ".png".data), ("aaa".data, ".jpg".data)] ∧
    ((∀ pr : Item, 1 ≤ countPair pr (extractPairs pageTwo none) →
        countPair pr [("bbb".data, ".png".data), ("aaa".data, ".jpg".data)] = 1) ∧
      (∀ pr : Item,
        countPair pr [("bbb".data, ".png".data), ("aaa".data, ".jpg".data)] ≤ 1)) :=
  ⟨by decide, C2_dedup_amended pageTwo none _ (by decide)⟩

/-- C3: evaluation of the extraction at the failing input.  With the filter
`["jpg"]` the composed pattern demands a doubled dot, so the ordinary page
fragment `{"hash":"abc1","ext":".jpg"}` yields nothing (first conjunct),
although without a filter the same page yields the item (second conjunct);
only the malformed field `"ext":"..jpg"` matches a filtered run, and the
recorded extension then carries both dots (third conjunct). -/
theorem C3_filter_code_eval :
    extractPairs "\x7b\"hash\":\"abc1\",\"ext\":\".jpg\"\x7d".data (some ["jpg".data]) = [] ∧
    extractPairs "\x7b\"hash\":\"abc1\",\"ext\":\".jpg\"\x7d".data none =
      [("abc1".data, ".jpg".data)] ∧
    extractPairs "\x7b\"hash\":\"abc1\",\"ext\":\"..jpg\"\x7d".data (some ["jpg".data]) =
      [("abc1".data, "..jpg".data)] :=
  ⟨by decide, by decide, by decide⟩

/-- C4 counterexample: `"http://imgur.com/a/abc!"` is not of the album-URL
shape (no string of the spec shape ends in `'!'`), yet the anchored-at-start
`re.match` accepts it, so construction succeeds instead of failing with
`InvalidUrl`. -/
theorem C4_counterexample :
    imgurMatch "http://imgur.com/a/abc!".data = some ("http".data, "abc".data) ∧
    ¬ ∃ p k, SpecAlbumUrl "http://imgur.com/a/abc!".data p k := by
  refine ⟨by decide, ?_⟩
  rintro ⟨p, k, h⟩
  exact absurd (specChar_of_mem h '!' (by decide)) (by decide)

/-- C4 (amended): every string that is exactly of the album-URL shape is
accepted with exactly the `(protocol, key)` pair of that shape; only strings
no prefix of which matches the pattern fail (`re.match` anchors at the start
only, so a string with a matching prefix and trailing garbage is accepted —
see the counterexample). -/
theorem C4_full_shape_accepted (s p k : List Char) (h : SpecAlbumUrl s p k) :
    imgurMatch s = some (p, k) := by
  obtain ⟨sub, seg, frag, hp, hsub, hseg, hk, hka, hfrag, hs⟩ := h
  subst hs
  rw [imgurMatch_reduce p sub hp hsub, segKey_spec seg k frag hseg hk hka hfrag]
  rfl

theorem C4_full_shape_accepted_witness :
    SpecAlbumUrl "https://www.imgur.com/gallery/uOOju#6".data "https".data "uOOju".data ∧
    imgurMatch "https://www.imgur.com/gallery/uOOju#6".data =
      some ("https".data, "uOOju".data) := by
  have hspec :
      SpecAlbumUrl "https://www.imgur.com/gallery/uOOju#6".data "https".data "uOOju".data :=
    ⟨"www.".data, "gallery/".data, "#6".data, Or.inr rfl, by decide, by decide,
     by decide, by decide, Or.inr ⟨"6".data, rfl, by decide, by decide⟩, by decide⟩
  exact ⟨hspec, C4_full_shape_accepted _ _ _ hspec⟩

/-- C5: an item whose destination file exists at the start of its iteration
is skipped — its iteration contributes no network request, no success event,
and no filesystem change (first conjunct, the loop equation).  Consequently
a second `save_images` run over the folder produced by a first run leaves
the on-disk contents identical (second conjunct) and only requests URLs of
items whose destination file is absent after the first run (third
conjunct). -/
theorem C5_skip_existing_idempotent (net : List Char → Response)
    (decode : List Nat → Option (Nat × Nat)) (hooks : Hooks) (album_key : List Char)
    (imageIDs : List Item) (foldername : Option (List Char)) (useKey : Bool) (fs0 : Fs)
    (image : Item) (rest : List Item) (counter : Nat) (fs : Fs)
    (hex : (fsLookup fs
        (destPath (foldername.getD album_key) album_key useKey image counter)).isSome =
      true) :
    (save_images_aux net decode hooks (foldername.getD album_key) album_key useKey
        (image :: rest) counter fs =
      ((save_images_aux net decode hooks (foldername.getD album_key) album_key useKey rest
          (counter + 1) fs).1,
       (hooks.image_callbacks.map fun o =>
          Event.before o counter (image_url_of image)
            (destPath (foldername.getD album_key) album_key useKey image counter)) ++
         (save_images_aux net decode hooks (foldername.getD album_key) album_key useKey rest
             (counter + 1) fs).2.1,
       (save_images_aux net decode hooks (foldername.getD album_key) album_key useKey rest
           (counter + 1) fs).2.2)) ∧
    (save_images net decode hooks album_key imageIDs foldername useKey
        (save_images net decode hooks album_key imageIDs foldername useKey fs0).1).1 =
      (save_images net decode hooks album_key imageIDs foldername useKey fs0).1 ∧
    (∀ u ∈ (save_images net decode hooks album_key imageIDs foldername useKey
        (save_images net decode hooks album_key imageIDs foldername useKey fs0).1).2.2,
      ∃ pre im post, imageIDs = pre ++ im :: post ∧ u = image_url_of im ∧
        fsLookup (save_images net decode hooks album_key imageIDs foldername useKey fs0).1
          (destPath (foldername.getD album_key) album_key useKey im (1 + pre.length)) =
          none) := by
  refine ⟨?_, ?_, ?_⟩
  · simp [save_images_aux, save_step, hex]
  · exact aux_fst_idem net decode hooks (foldername.getD album_key) album_key useKey
      imageIDs 1 fs0
  · intro u hu
    exact aux_reqs net decode hooks (foldername.getD album_key) album_key useKey imageIDs 1
      (save_images net decode hooks album_key imageIDs foldername useKey fs0).1 u hu

/-- C6: an item whose downloaded body decodes to exactly 161×81 pixels is
discarded: the iteration makes the request but writes nothing to the
destination path, fires no success event, and the loop continues with the
remaining items on the unchanged filesystem. -/
theorem C6_placeholder_skip (net : List Char → Response)
    (decode : List Nat → Option (Nat × Nat)) (hooks : Hooks)
    (albumFolder album_key : List Char) (useKey : Bool) (image : Item) (rest : List Item)
    (counter : Nat) (fs : Fs) (content : List Nat)
    (hno : fsLookup fs (destPath albumFolder album_key useKey image counter) = none)
    (hnet : net (image_url_of image) = Response.ok content)
    (hdec : decode content = some (161, 81)) :
    save_images_aux net decode hooks albumFolder album_key useKey (image :: rest) counter fs =
      ((save_images_aux net decode hooks albumFolder album_key useKey rest (counter + 1)
          fs).1,
       (hooks.image_callbacks.map fun o =>
          Event.before o counter (image_url_of image)
            (destPath albumFolder album_key useKey image counter)) ++
         (save_images_aux net decode hooks albumFolder album_key useKey rest (counter + 1)
             fs).2.1,
       image_url_of image ::
         (save_images_aux net decode hooks albumFolder album_key useKey rest (counter + 1)
             fs).2.2) := by
  simp [save_images_aux, save_step, hno, hnet, hdec]

/-- C7: evaluation of the fetch-and-check step of `__init__`.  A non-200
(in particular any non-2xx) final status raises `ImgurAlbumException`
carrying the status code, but a transport-level failure does NOT reach the
`ImgurAlbumException` raise: the handler's `e.code` attribute access raises
`AttributeError` (requests transport exceptions define no `code`), so an
error of a different kind escapes the fetch step. -/
theorem C7_fetch_check_eval (status : Nat) (body : List Char) (hs : status ≠ 200)
    (ename : String) :
    listing_fetch_check (ListingResult.resp status body) =
      FetchOutcome.imgurAlbumException status ∧
    listing_fetch_check (ListingResult.exc ename) = FetchOutcome.attributeError ename ∧
    (∀ code, listing_fetch_check (ListingResult.exc ename) ≠
      FetchOutcome.imgurAlbumException code) :=
  ⟨by simp [listing_fetch_check, hs], rfl, fun code => by simp [listing_fetch_check]⟩

theorem C7_fetch_check_eval_witness :
    (404 ≠ 200) ∧
    (listing_fetch_check (ListingResult.resp 404 []) =
        FetchOutcome.imgurAlbumException 404 ∧
      listing_fetch_check (ListingResult.exc "ConnectionError") =
        FetchOutcome.attributeError "ConnectionError" ∧
      (∀ code, listing_fetch_check (ListingResult.exc "ConnectionError") ≠
        FetchOutcome.imgurAlbumException code)) :=
  ⟨by decide, C7_fetch_check_eval 404 [] (by decide) "ConnectionError"⟩

/-- C8 counterexample: for the album URL `https://imgur.com/a/uOOju` the
parsed protocol is `https`, but the listing URL the constructor builds is
the hardcoded-scheme `http://imgur.com/a/uOOju/layout/blog`, not the
`https://…` URL the claim requires; and the download loop requests
`http://i.imgur.com/abc.jpg`, not the claimed `https://…` — the `https`
list `imageURLs` is computed but not what the loop requests. -/
theorem C8_counterexample :
    imgurMatch "https://imgur.com/a/uOOju".data = some ("https".data, "uOOju".data) ∧
    constructListingUrl "https://imgur.com/a/uOOju".data =
      some "http://imgur.com/a/uOOju/layout/blog".data ∧
    "http://imgur.com/a/uOOju/layout/blog".data ≠
      "https://imgur.com/a/uOOju/layout/blog".data ∧
    (save_images (fun _ => Response.transportError "ConnectionError") (fun _ => none)
        ⟨[], [], []⟩ "uOOju".data [("abc".data, ".jpg".data)] none false []).2.2 =
      ["http://i.imgur.com/abc.jpg".data] ∧
    imageURLs_of [("abc".data, ".jpg".data)] = ["https://i.imgur.com/abc.jpg".data] ∧
    ("http://i.imgur.com/abc.jpg".data : List Char) ≠ "https://i.imgur.com/abc.jpg".data :=
  ⟨by decide, by decide, by decide, by decide, by decide, by decide⟩

/-- C8 (amended): the listing request URL is always
`http://imgur.com/a/<key>/layout/blog` — scheme hardcoded to `http`, the
parsed protocol unused — and every URL the download loop requests is
`http://i.imgur.com/<id><extension>` for one of the album's items (the
`https` `imageURLs` list is computed in the constructor but not used for
downloading). -/
theorem C8_request_urls (net : List Char → Response)
    (decode : List Nat → Option (Nat × Nat)) (hooks : Hooks) (album_key : List Char)
    (imageIDs : List Item) (foldername : Option (List Char)) (useKey : Bool) (fs0 : Fs)
    (album_url p k : List Char) (h : imgurMatch album_url = some (p, k)) :
    constructListingUrl album_url =
      some ("http://imgur.com/a/".data ++ (k ++ "/layout/blog".data)) ∧
    ∀ u ∈ (save_images net decode hooks album_key imageIDs foldername useKey fs0).2.2,
      ∃ im, im ∈ imageIDs ∧ u = "http://i.imgur.com/".data ++ im.1 ++ im.2 := by
  constructor
  · simp [constructListingUrl, h, fullListURL]
  · intro u hu
    rcases aux_reqs net decode hooks (foldername.getD album_key) album_key useKey imageIDs 1
        fs0 u hu with ⟨pre, im, post, hitems, hurl, -⟩
    exact ⟨im, by simp [hitems], hurl⟩

/-- C9 counterexample: for a fixed page with two distinct items, both
orderings of the deduplicated pair list are possible `list(set(...))`
outcomes — the iteration order of a Python `set` of strings varies with the
per-process hash randomisation — so "two runs produce the sequence in the
same order" is false. -/
theorem C9_counterexample :
    pySetList (extractPairs pageTwo none)
      [("aaa".data, ".jpg".data), ("bbb".data, ".png".data)] ∧
    pySetList (extractPairs pageTwo none)
      [("bbb".data, ".png".data), ("aaa".data, ".jpg".data)] ∧
    ([("aaa".data, ".jpg".data), ("bbb".data, ".png".data)] : List Item) ≠
      [("bbb".data, ".png".data), ("aaa".data, ".jpg".data)] :=
  ⟨by decide, by decide, by decide⟩

/-- C9 (amended): deduplication is deterministic only up to order — any two
`list(set(...))` outcomes for the same page body and filter are permutations
of each other (same items, possibly different order). -/
theorem C9_deterministic_up_to_perm (html : List Char) (extn : Option (List (List Char)))
    (out1 out2 : List Item) (h1 : pySetList (extractPairs html extn) out1)
    (h2 : pySetList (extractPairs html extn) out2) : List.Perm out1 out2 :=
  h1.trans h2.symm

theorem C9_deterministic_up_to_perm_witness :
    pySetList (extractPairs pageTwo none)
      [("aaa".data, ".jpg".data), ("bbb".data, ".png".data)] ∧
    pySetList (extractPairs pageTwo none)
      [("bbb".data, ".png".data), ("aaa".data, ".jpg".data)] ∧
    List.Perm ([("aaa".data, ".jpg".data), ("bbb".data, ".png".data)] : List Item)
      [("bbb".data, ".png".data), ("aaa".data, ".jpg".data)] :=
  ⟨by decide, by decide,
   C9_deterministic_up_to_perm pageTwo none _ _ (by decide) (by decide)⟩

/-- C10: after a successful construction the instance attribute `album_key`
is the plain alphanumeric key string parsed from the input URL; attribute
lookup (instance dict before class dict) returns that string rather than
the class method of the same name, and the string is not callable, so
`instance.album_key()` raises `TypeError` instead of returning the key. -/
theorem C10_album_key_shadow (album_url p k : List Char)
    (h : imgurMatch album_url = some (p, k)) :
    getattrOn (instance_dict album_url p k) class_dict "album_key" =
      some (PyAttr.strVal k) ∧
    isCallable (PyAttr.strVal k) = false ∧
    dictLookup class_dict "album_key" = some (PyAttr.methodVal "album_key") ∧
    (∀ c ∈ k, isAlnumChar c = true) :=
  ⟨rfl, rfl, rfl, imgurMatch_key_alnum h⟩

theorem C10_album_key_shadow_witness :
    imgurMatch "http://imgur.com/a/uOOju".data = some ("http".data, "uOOju".data) ∧
    (getattrOn (instance_dict "http://imgur.com/a/uOOju".data "http".data "uOOju".data)
        class_dict "album_key" = some (PyAttr.strVal "uOOju".data) ∧
      isCallable (PyAttr.strVal "uOOju".data) = false ∧
      dictLookup class_dict "album_key" = some (PyAttr.methodVal "album_key") ∧
      (∀ c ∈ "uOOju".data, isAlnumChar c = true)) :=
  ⟨by decide, C10_album_key_shadow "http://imgur.com/a/uOOju".data "http".data "uOOju".data
    (by decide)⟩

theorem C5_skip_existing_idempotent_witness :
    ((fsLookup fsAbc (destPath ((none : Option (List Char)).getD "k".data) "k".data false
        itemAbc 1)).isSome = true) ∧
    ((save_images_aux netFail decodeNone noHooks ((none : Option (List Char)).getD "k".data)
        "k".data false (itemAbc :: []) 1 fsAbc =
      ((save_images_aux netFail decodeNone noHooks ((none : Option (List Char)).getD "k".data)
          "k".data false [] (1 + 1) fsAbc).1,
       (noHooks.image_callbacks.map fun o =>
          Event.before o 1 (image_url_of itemAbc)
            (destPath ((none : Option (List Char)).getD "k".data) "k".data false itemAbc
              1)) ++
         (save_images_aux netFail decodeNone noHooks
             ((none : Option (List Char)).getD "k".data) "k".data false [] (1 + 1)
             fsAbc).2.1,
       (save_images_aux netFail decodeNone noHooks ((none : Option (List Char)).getD "k".data)
           "k".data false [] (1 + 1) fsAbc).2.2)) ∧
    (save_images netFail decodeNone noHooks "k".data [] none false
        (save_images netFail decodeNone noHooks "k".data [] none false []).1).1 =
      (save_images netFail decodeNone noHooks "k".data [] none false []).1 ∧
    (∀ u ∈ (save_images netFail decodeNone noHooks "k".data [] none false
        (save_images netFail decodeNone noHooks "k".data [] none false []).1).2.2,
      ∃ pre im post, ([] : List Item) = pre ++ im :: post ∧ u = image_url_of im ∧
        fsLookup (save_images netFail decodeNone noHooks "k".data [] none false []).1
          (destPath ((none : Option (List Char)).getD "k".data) "k".data false im
            (1 + pre.length)) = none)) :=
  ⟨by decide, C5_skip_existing_idempotent netFail decodeNone noHooks "k".data [] none false
    [] itemAbc [] 1 fsAbc (by decide)⟩

theorem C6_placeholder_skip_witness :
    (fsLookup [] (destPath "f".data "k".data false itemAbc 1) = none ∧
      netOk5 (image_url_of itemAbc) = Response.ok [5] ∧
      decodePlaceholder [5] = some (161, 81)) ∧
    save_images_aux netOk5 decodePlaceholder noHooks "f".data "k".data false (itemAbc :: [])
        1 [] =
      ((save_images_aux netOk5 decodePlaceholder noHooks "f".data "k".data false [] (1 + 1)
          []).1,
       (noHooks.image_callbacks.map fun o =>
          Event.before o 1 (image_url_of itemAbc)
            (destPath "f".data "k".data false itemAbc 1)) ++
         (save_images_aux netOk5 decodePlaceholder noHooks "f".data "k".data false [] (1 + 1)
             []).2.1,
       image_url_of itemAbc ::
         (save_images_aux netOk5 decodePlaceholder noHooks "f".data "k".data false [] (1 + 1)
             []).2.2) :=
  ⟨⟨rfl, rfl, rfl⟩, C6_placeholder_skip netOk5 decodePlaceholder noHooks "f".data "k".data
    false itemAbc [] 1 [] [5] rfl rfl rfl⟩

theorem C8_request_urls_witness :
    imgurMatch "http://imgur.com/a/uOOju".data = some ("http".data, "uOOju".data) ∧
    (constructListingUrl "http://imgur.com/a/uOOju".data =
        some ("http://imgur.com/a/".data ++ ("uOOju".data ++ "/layout/blog".data)) ∧
      ∀ u ∈ (save_images netFail decodeNone noHooks "uOOju".data [itemAbc] none false
          []).2.2,
        ∃ im, im ∈ [itemAbc] ∧ u = "http://i.imgur.com/".data ++ im.1 ++ im.2) :=
  ⟨by decide, C8_request_urls netFail decodeNone noHooks "uOOju".data [itemAbc] none false []
    "http://imgur.com/a/uOOju".data "http".data "uOOju".data (by decide)⟩

